import Mathlib

/-!
Verification development for the HK-47 live voice-interaction client.

The TypeScript sources are embedded shallowly: JavaScript numbers are
modelled as exact rationals (every arithmetic step relevant to the claims
below is exact on the float inputs the code actually receives, so the
rational model is faithful), JavaScript strings as Lean strings with
character-list operations, fallible operations as Except values, and the
event-driven callbacks as explicit state-passing step functions.
-/

/- ===================================================================
   JavaScript primitives
   =================================================================== -/

/-- Whitespace test used by the JavaScript String.prototype.trim model. -/
def jsIsSpace (c : Char) : Bool :=
  c = ' ' || c = '\t' || c = '\n' || c = '\r'

/-- Model of JavaScript String.prototype.trim over the character list. -/
def strTrim (s : String) : String :=
  ⟨((s.data.dropWhile jsIsSpace).reverse.dropWhile jsIsSpace).reverse⟩

/-- Model of JavaScript String.prototype.toLowerCase over the character list. -/
def strLower (s : String) : String :=
  ⟨s.data.map Char.toLower⟩

/-- Model of JavaScript String.prototype.includes: substring containment. -/
def strContainsB (s pat : String) : Bool :=
  decide (pat.data <:+: s.data)

/-- Model of JavaScript Math.round on an exact rational: floor of x + 1/2. -/
def jsRound (x : ℚ) : ℤ :=
  ⌊x + 1 / 2⌋

/-- Truncation toward zero of a rational, as performed when a JavaScript
number is stored into an Int16Array element (ToInt16 without wrap for the
in-range values produced by the encoder). -/
def truncToward0 (x : ℚ) : ℤ :=
  if x < 0 then ⌈x⌉ else ⌊x⌋

/- ===================================================================
   src/utils/audio-utils.ts
   =================================================================== -/

/-- Clamping step of float32ToPcmBlob, line 94 of audio-utils.ts:
let s = Math.max(-1, Math.min(1, data[i])). -/
def clampSample (s : ℚ) : ℚ :=
  max (-1) (min 1 s)

/-- Per-sample encoder of float32ToPcmBlob, lines 94-96 of audio-utils.ts:
clamp to [-1, 1], scale negatives by 0x8000 = 32768 and non-negatives by
0x7FFF = 32767, then store into an Int16Array (truncation toward zero). -/
def float32ToPcmSample (s : ℚ) : ℤ :=
  truncToward0
    (if clampSample s < 0 then clampSample s * 32768 else clampSample s * 32767)

/-- Per-sample decoder of pcmToAudioBuffer, line 47 of audio-utils.ts:
channelData[i] = dataInt16[i] / 32768.0. -/
def pcmDecodeSample (k : ℤ) : ℚ :=
  (k : ℚ) / 32768

/-- Output sample k of the boxcar decimation loop of downsampleBuffer,
lines 70-81 of audio-utils.ts: average the input samples with indices in
[round(k * ratio), round((k + 1) * ratio)) that lie inside the buffer;
an empty window yields 0.  The running offsetBuffer of the source loop
equals round(k * ratio), since it starts at 0 = round(0 * ratio) and each
iteration sets it to the next window bound. -/
def boxcarOutput (buffer : List ℚ) (ratio : ℚ) (k : ℕ) : ℚ :=
  let lo := (jsRound ((k : ℚ) * ratio)).toNat
  let hi := (jsRound (((k : ℚ) + 1) * ratio)).toNat
  let window := (buffer.drop lo).take (hi - lo)
  if window.length = 0 then 0 else window.sum / (window.length : ℚ)

/-- Model of downsampleBuffer, lines 57-83 of audio-utils.ts.  Equal rates
return the buffer unchanged; a larger output rate throws; otherwise the
output has round(length / (inputRate / outputRate)) samples, each the
boxcar average of its source window. -/
def downsampleBuffer (buffer : List ℚ) (inputRate outputRate : ℕ) :
    Except String (List ℚ) :=
  if outputRate = inputRate then
    .ok buffer
  else if inputRate < outputRate then
    .error "Upsampling not supported"
  else
    let sampleRatio : ℚ := (inputRate : ℚ) / (outputRate : ℚ)
    let newLength := (jsRound ((buffer.length : ℚ) / sampleRatio)).toNat
    .ok ((List.range newLength).map (boxcarOutput buffer sampleRatio))

/- ===================================================================
   Playback scheduling (playAudioChunk, useLiveSession.ts lines 506-536)
   =================================================================== -/

/-- Start time chosen for a chunk, line 515 of useLiveSession.ts:
nextStartTimeRef.current = Math.max(nextStartTimeRef.current, ctx.currentTime),
which is then used as the start of source.start (line 529). -/
def playStartTime (cursor now : ℚ) : ℚ :=
  max cursor now

/-- Cursor value after scheduling one chunk, line 532 of useLiveSession.ts:
nextStartTimeRef.current += audioBuffer.duration. -/
def playNextCursor (cursor now dur : ℚ) : ℚ :=
  playStartTime cursor now + dur

/-- Playback Schedule Cursor before chunk n, for a sequence of chunks whose
arrival clock readings and durations are given by now and dur. -/
def schedCursor (c0 : ℚ) (now dur : ℕ → ℚ) : ℕ → ℚ
  | 0 => c0
  | n + 1 => playNextCursor (schedCursor c0 now dur n) (now n) (dur n)

/-- Scheduled start time of chunk n. -/
def schedStart (c0 : ℚ) (now dur : ℕ → ℚ) (n : ℕ) : ℚ :=
  playStartTime (schedCursor c0 now dur n) (now n)

/- ===================================================================
   Session log list (addLog, useLiveSession.ts lines 497-504)
   =================================================================== -/

/-- One entry of the session log.  The wall-clock timestamp string is an
external input irrelevant to the claims and is omitted. -/
structure LogEntry where
  sender : String
  message : String
  kind : String
deriving DecidableEq, Repr

/-- Model of addLog, lines 498-503 of useLiveSession.ts:
setLogs(prev => [...prev.slice(-49), entry]).  JavaScript slice(-49)
keeps the last 49 elements (all of them when fewer), modelled by dropping
length - 49 from the front. -/
def addLog (logs : List LogEntry) (e : LogEntry) : List LogEntry :=
  logs.drop (logs.length - 49) ++ [e]

/- ===================================================================
   Session orchestrator onmessage (useLiveSession.ts v2, lines 710-837)
   =================================================================== -/

/-- A decoded inbound audio chunk: the output clock reading at processing
time and the duration of the decoded buffer. -/
structure AudioChunk where
  now : ℚ
  dur : ℚ

/-- The serverContent fields of one remote-channel message that the
onmessage handler consumes, in the order the handler reads them. -/
structure ServerMsg where
  interrupted : Bool := false
  inputTranscription : Option String := none
  outputTranscription : Option String := none
  audioData : Option AudioChunk := none
  turnComplete : Bool := false

/-- Session state mutated by the v2 onmessage handler.  audioSources is
the Active Playback Set (handles identified by creation index), inFlight
counts augmentations (processUserContext round trips) currently in flight;
the emotion annotation and the outbound prompt sends are external effects
not tracked here. -/
structure SessionState where
  nextStartTime : ℚ
  audioSources : List ℕ
  nextHandle : ℕ
  inputTranscript : String
  outputTranscript : String
  isAnalyzing : Bool
  inFlight : ℕ
  logs : List LogEntry

/-- Session state at connect time. -/
def initSession : SessionState :=
  { nextStartTime := 0, audioSources := [], nextHandle := 0,
    inputTranscript := "", outputTranscript := "", isAnalyzing := false,
    inFlight := 0, logs := [] }

/-- Model of the v2 onmessage handler, lines 710-837 of useLiveSession.ts,
processing the serverContent branches in source order: the interrupted
branch (stop and clear the Active Playback Set, reset the cursor, discard
the agent transcript without logging it), transcript accumulation, the
first-audio-chunk context trigger (guarded by the isAnalyzing flag), audio
playback via playAudioChunk, and the turn-complete branch (whose context
trigger checks only that the user transcript is non-empty, not the
isAnalyzing flag). -/
def processMessage (st : SessionState) (m : ServerMsg) : SessionState :=
  let st :=
    if m.interrupted then
      { st with audioSources := [], nextStartTime := 0, outputTranscript := "" }
    else st
  let st :=
    match m.inputTranscription with
    | some s => { st with inputTranscript := st.inputTranscript ++ s }
    | none => st
  let st :=
    match m.outputTranscription with
    | some s => { st with outputTranscript := st.outputTranscript ++ s }
    | none => st
  let st :=
    match m.audioData with
    | some _ =>
      if strTrim st.inputTranscript ≠ "" ∧ st.isAnalyzing = false then
        { st with
          logs := addLog st.logs ⟨"MEATBAG", st.inputTranscript, "info"⟩,
          inputTranscript := "",
          isAnalyzing := true,
          inFlight := st.inFlight + 1 }
      else st
    | none => st
  let st :=
    match m.audioData with
    | some c =>
      { st with
        nextStartTime := playNextCursor st.nextStartTime c.now c.dur,
        audioSources := st.audioSources ++ [st.nextHandle],
        nextHandle := st.nextHandle + 1 }
    | none => st
  if m.turnComplete then
    let st :=
      if strTrim st.inputTranscript ≠ "" then
        { st with
          logs := addLog st.logs ⟨"MEATBAG", st.inputTranscript, "info"⟩,
          inputTranscript := "",
          isAnalyzing := true,
          inFlight := st.inFlight + 1 }
      else st
    if strTrim st.outputTranscript ≠ "" then
      { st with
        logs := addLog st.logs ⟨"HK-47", st.outputTranscript, "info"⟩,
        outputTranscript := "" }
    else st
  else st

/-- Completion of a processUserContext round trip, lines 777-793 and
815-830 of useLiveSession.ts: the then-callback sends the follow-up prompt
(external effect) and clears the isAnalyzing flag. -/
def analysisDone (st : SessionState) : SessionState :=
  { st with isAnalyzing := false, inFlight := st.inFlight - 1 }

/-- Fold a list of remote-channel messages through the handler. -/
def runMessages (st : SessionState) (ms : List ServerMsg) : SessionState :=
  ms.foldl processMessage st

/- ===================================================================
   Memory Store Client queue (MemoryDBClient, part_002 lines 33-241)
   =================================================================== -/

/-- State of the MemoryDBClient request queue: waiting holds the queued
operations (this.queue, FIFO), pending the operation whose
resolver/rejecter pair currently occupies the slot, resolutions the
operations resolved so far paired with the index of the operation response
that resolved them, respCount the number of operation (non-auth) responses
received.  The connection handshake is abstracted away: auth messages are
consumed before the resolver dispatch in ws.onmessage and never touch the
pending slot. -/
structure ClientState where
  waiting : List ℕ
  pending : Option ℕ
  resolutions : List (ℕ × ℕ)
  respCount : ℕ
deriving DecidableEq, Repr

/-- Client state with an idle queue. -/
def initClient : ClientState :=
  { waiting := [], pending := none, resolutions := [], respCount := 0 }

/-- The eager drain step of processQueue, part_002 lines 166-176: when no
resolver slot is occupied, the task at the head of the queue is shifted
and dispatched, installing its resolver pair. -/
def drainClient (st : ClientState) : ClientState :=
  match st.pending, st.waiting with
  | none, w :: rest => { st with pending := some w, waiting := rest }
  | _, _ => st

/-- One external event of the client: a public operation enqueued
(enqueue, part_002 lines 151-164), or an operation response arriving on
the socket (ws.onmessage resolver dispatch, part_002 lines 96-107). -/
inductive ClientEvent where
  | enqueue (op : ℕ)
  | response
deriving DecidableEq, Repr

/-- Step function of the client queue.  An enqueue appends to the FIFO and
triggers processQueue; a response resolves the occupied slot (if any) and
lets the serial worker dispatch the next queued operation. -/
def clientStep (st : ClientState) : ClientEvent → ClientState
  | .enqueue op => drainClient { st with waiting := st.waiting ++ [op] }
  | .response =>
    match st.pending with
    | some a =>
      drainClient
        { st with
          pending := none,
          resolutions := st.resolutions ++ [(a, st.respCount)],
          respCount := st.respCount + 1 }
    | none => { st with respCount := st.respCount + 1 }

/-- Fold a list of client events from the idle state. -/
def runClient (es : List ClientEvent) : ClientState :=
  es.foldl clientStep initClient

/-- Operations enqueued by an event list, in order. -/
def enqueuedOps (es : List ClientEvent) : List ℕ :=
  es.flatMap fun e =>
    match e with
    | .enqueue op => [op]
    | .response => []

/-- The dispatch order recorded in a client state: operations already
resolved, then the operation occupying the slot, then the FIFO queue. -/
def clientOrder (st : ClientState) : List ℕ :=
  st.resolutions.map Prod.fst ++ st.pending.toList ++ st.waiting

/- ===================================================================
   Memory records and helpers (part_002 lines 1-7 and 245-304)
   =================================================================== -/

/-- A Memory record of the backend client, part_002 lines 1-7. -/
structure Memory where
  id : String
  content : String
  category : String
  tags : List String
  created_ms : ℤ
deriving DecidableEq, Repr

/-- Match predicate of searchMemories, part_002 lines 276-282, applied to
the lowercased trimmed query q and the lowercased search tags sTags. -/
def memMatches (q : String) (sTags : List String) (m : Memory) : Bool :=
  (q ≠ "" &&
    (strContainsB (strLower m.content) q ||
     strContainsB (strLower m.category) q ||
     m.tags.any (fun t => strContainsB (strLower t) q))) ||
  sTags.any (fun st => m.tags.any (fun mt => strContainsB (strLower mt) st))

/-- Descending recency comparison used by the sort on part_002 line 284:
results.sort((a, b) => b.created_ms - a.created_ms), a stable sort. -/
def recencyLe (a b : Memory) : Bool :=
  b.created_ms ≤ a.created_ms

/-- Model of searchMemories, part_002 lines 263-297.  The first component
records whether a fetch-all request was dispatched to the backend: the
source awaits db.fetchAll() before the vacuous-query check, so it is true
on every call, including vacuous ones; backend gives the outcome of that
fetch-all.  On a fetch failure the catch branch returns the empty list. -/
def searchMemoriesOp (backend : Except String (List Memory))
    (query : String) (searchTags : List String) : Bool × List Memory :=
  match backend with
  | .error _ => (true, [])
  | .ok allMemories =>
    let q := strTrim (strLower query)
    let sTags := searchTags.map strLower
    if q = "" ∧ sTags = [] then (true, [])
    else
      let results := allMemories.filter (memMatches q sTags)
      (true, (results.mergeSort recencyLe).take 5)

/-- Model of the saveMemory helper, part_002 lines 245-252: the insert
result on success, and on any failure the synthetic identifier
"offline-id-" + Date.now() together with the emitted error log. -/
def saveMemoryHelper (ins : Except String String) (nowMs : ℕ) :
    String × Option String :=
  match ins with
  | .ok id => (id, none)
  | .error e => ("offline-id-" ++ toString nowMs, some ("Write Protocol Failed: " ++ e))

/-- Model of the getAllMemories helper, part_002 lines 254-261: the
fetch-all result on success, and on any failure the empty list together
with the emitted error log. -/
def getAllMemoriesHelper (r : Except String (List Memory)) :
    List Memory × Option String :=
  match r with
  | .ok ms => (ms, none)
  | .error e => ([], some ("Read Protocol Failed: " ++ e))

/-- Error log emitted by the searchMemories catch branch, part_002
line 294; paired with searchMemoriesOp, whose error case returns []. -/
def searchErrorLog (backend : Except String (List Memory)) : Option String :=
  match backend with
  | .ok _ => none
  | .error e => some ("Search Protocol Failed: " ++ e)

/-- The match predicate of the claim on searchMemories, stated in the
words of the specification: the non-empty lowercased query is a substring
of the content, the category or some tag, or some search tag is a
substring of some record tag (all lowercased). -/
def ClaimMatch (q : String) (sTags : List String) (m : Memory) : Prop :=
  (q ≠ "" ∧
    (q.data <:+: (strLower m.content).data ∨
     q.data <:+: (strLower m.category).data ∨
     ∃ t ∈ m.tags, q.data <:+: (strLower t).data)) ∨
  ∃ s ∈ sTags, ∃ mt ∈ m.tags, s.data <:+: (strLower mt).data

/- ===================================================================
   Recording sub-state machine (modelled from the spec)
   =================================================================== -/

/-- Modelled from the spec: the RECORDING sub-state of the Session
Orchestrator (spec section 4.3) is not present under src/ — App.tsx
consumes an isRecording flag that no included revision of useLiveSession
provides, so the recording revision of the hook is missing.  A turn is
modelled as the list of words of its accumulated user transcript. -/
def startPhraseWords : List String := ["begin", "recording"]

/-- Modelled from the spec: the stop phrase that exits RECORDING. -/
def stopPhraseWords : List String := ["end", "recording"]

/-- Modelled from the spec: state of the recording protocol — whether the
session is in RECORDING, the Recording Accumulation Buffer (as words), and
the utterances delivered to the Context Augmentation Engine so far. -/
structure RecorderState where
  recording : Bool
  recBuffer : List String
  delivered : List String
deriving DecidableEq, Repr

/-- Recorder state on entering CONNECTED. -/
def initRecorder : RecorderState :=
  { recording := false, recBuffer := [], delivered := [] }

/-- Split a word list around the first occurrence of a phrase, returning
the words before it and the words after it. -/
def splitAtPhrase (phrase : List String) : List String → Option (List String × List String)
  | [] => if phrase.isPrefixOf ([] : List String) then some ([], []) else none
  | w :: rest =>
    if phrase.isPrefixOf (w :: rest) then
      some ([], (w :: rest).drop phrase.length)
    else
      match splitAtPhrase phrase rest with
      | some (b, a) => some (w :: b, a)
      | none => none

/-- Modelled from the spec: processing of one completed turn (spec
section 4.3).  In RECORDING, a turn containing the stop phrase flushes the
buffer plus the words before the stop phrase to the Context Augmentation
Engine as one utterance and clears both buffers; otherwise the turn is
appended to the Recording Accumulation Buffer.  In IDLE, a turn containing
the start phrase enters RECORDING seeded with the words after the phrase
(the words before it are discarded); otherwise the turn goes to the engine
as an ordinary utterance. -/
def processTurn (st : RecorderState) (turn : List String) : RecorderState :=
  if st.recording then
    match splitAtPhrase stopPhraseWords turn with
    | some (b, _) =>
      { recording := false, recBuffer := [],
        delivered := st.delivered ++ [String.intercalate " " (st.recBuffer ++ b)] }
    | none => { st with recBuffer := st.recBuffer ++ turn }
  else
    match splitAtPhrase startPhraseWords turn with
    | some (_, a) => { st with recording := true, recBuffer := a }
    | none => { st with delivered := st.delivered ++ [String.intercalate " " turn] }

/-- Fold a list of completed turns through the recorder. -/
def processTurns (st : RecorderState) (turns : List (List String)) : RecorderState :=
  turns.foldl processTurn st

/- ===================================================================
   Helper lemmas
   =================================================================== -/

/-- Folding addLog from the empty log keeps exactly the most recent
at most 50 entries. -/
theorem addLog_fold_eq (es : List LogEntry) :
    List.foldl addLog [] es = es.drop (es.length - 50) := by
  induction es using List.reverseRecOn with
  | nil => rfl
  | append_singleton es e ih =>
    rw [List.foldl_concat, ih]
    unfold addLog
    rw [List.length_drop, List.drop_drop, List.length_append,
      List.drop_append_of_le_length (by simp)]
    have h : es.length - 50 + (es.length - (es.length - 50) - 49) =
        es.length + [e].length - 50 := by
      simp only [List.length_singleton]
      omega
    rw [h]

/-- The next chunk never starts before the previous chunk has ended. -/
theorem schedStart_succ_ge (c0 : ℚ) (now dur : ℕ → ℚ) (n : ℕ) :
    schedStart c0 now dur n + dur n ≤ schedStart c0 now dur (n + 1) :=
  le_max_left _ _

/-- Draining the queue into the free slot preserves the dispatch order. -/
theorem clientOrder_drain (st : ClientState) :
    clientOrder (drainClient st) = clientOrder st := by
  rcases st with ⟨w, p, r, c⟩
  cases p <;> cases w <;> simp [drainClient, clientOrder]

/-- One client event appends exactly its enqueued operations to the
dispatch order. -/
theorem clientOrder_step (st : ClientState) (e : ClientEvent) :
    clientOrder (clientStep st e) = clientOrder st ++ enqueuedOps [e] := by
  cases e with
  | enqueue op =>
    rw [clientStep, clientOrder_drain]
    simp [clientOrder, enqueuedOps]
  | response =>
    rcases st with ⟨w, p, r, c⟩
    cases p with
    | none => simp [clientStep, clientOrder, enqueuedOps]
    | some a =>
      rw [clientStep]
      simp only [clientOrder_drain]
      simp [clientOrder, enqueuedOps]

/-- The dispatch order of a whole run lists the operations in enqueue
order. -/
theorem clientOrder_run_eq (es : List ClientEvent) :
    clientOrder (runClient es) = enqueuedOps es := by
  induction es using List.reverseRecOn with
  | nil => rfl
  | append_singleton es e ih =>
    unfold runClient at ih ⊢
    rw [List.foldl_concat, clientOrder_step, ih]
    simp [enqueuedOps]

/- ===================================================================
   Claim theorems
   =================================================================== -/

/-- Claim C10: addLog appends the new entry while retaining only the 49
most recent prior entries, so after any sequence of addLog operations from
the empty list the log holds the at most 50 most recent entries, with the
oldest discarded first. -/
theorem logs_bounded_by_50 :
    (∀ (logs : List LogEntry) (e : LogEntry),
        addLog logs e = logs.drop (logs.length - 49) ++ [e]) ∧
    (∀ es : List LogEntry,
        List.foldl addLog [] es = es.drop (es.length - 50)) ∧
    (∀ es : List LogEntry, (List.foldl addLog [] es).length ≤ 50) := by
  refine ⟨fun logs e => rfl, addLog_fold_eq, fun es => ?_⟩
  rw [addLog_fold_eq, List.length_drop]
  omega

/-- Claim C1: for a sequence of chunks played through playAudioChunk, each
chunk's start time is the maximum of the previous start time plus its
duration (the Playback Schedule Cursor) and the playback clock reading,
the cursor advances by exactly the chunk's duration, and no two scheduled
[start, start + duration) intervals overlap. -/
theorem playback_schedule_gapless (c0 : ℚ) (now dur : ℕ → ℚ)
    (hdur : ∀ k, 0 ≤ dur k) (_hmono : ∀ k, now k ≤ now (k + 1)) :
    (∀ n, schedStart c0 now dur (n + 1) =
        max (schedStart c0 now dur n + dur n) (now (n + 1))) ∧
    (∀ n, schedCursor c0 now dur (n + 1) = schedStart c0 now dur n + dur n) ∧
    (∀ i j, i < j → schedStart c0 now dur i + dur i ≤ schedStart c0 now dur j) := by
  refine ⟨fun n => rfl, fun n => rfl, fun i j hij => ?_⟩
  induction j with
  | zero => omega
  | succ j ih =>
    rcases Nat.lt_succ_iff_lt_or_eq.mp hij with h | h
    · calc schedStart c0 now dur i + dur i
          ≤ schedStart c0 now dur j := ih h
        _ ≤ schedStart c0 now dur j + dur j := by linarith [hdur j]
        _ ≤ schedStart c0 now dur (j + 1) := schedStart_succ_ge c0 now dur j
    · subst h
      exact schedStart_succ_ge c0 now dur i

/-- Witness for C1 at a concrete chunk sequence. -/
theorem playback_schedule_gapless_witness :
    schedStart 0 (fun _ => 0) (fun _ => 1) 0 + (fun _ => (1 : ℚ)) 0 ≤
      schedStart 0 (fun _ => 0) (fun _ => 1) 1 :=
  (playback_schedule_gapless 0 (fun _ => 0) (fun _ => 1)
    (fun _ => by norm_num) (fun _ => le_refl 0)).2.2 0 1 (by norm_num)

/-- Claim C2: the Memory Store Client dispatches an operation only when
the pending slot is free — an operation enqueued while the slot is
occupied waits in the FIFO — and the resolved operations pair with
operation responses strictly in enqueue order: in particular, enqueuing A
then B and then receiving two responses resolves A with the first and B
with the second. -/
theorem memoryClient_fifo_order :
    (∀ es : List ClientEvent, clientOrder (runClient es) = enqueuedOps es) ∧
    (∀ (st : ClientState) (a b : ℕ), st.pending = some a →
        (clientStep st (.enqueue b)).pending = some a ∧
        (clientStep st (.enqueue b)).waiting = st.waiting ++ [b]) ∧
    runClient [.enqueue 7, .enqueue 9, .response, .response] =
      { waiting := [], pending := none,
        resolutions := [(7, 0), (9, 1)], respCount := 2 } := by
  refine ⟨clientOrder_run_eq, ?_, by decide⟩
  intro st a b h
  rcases st with ⟨w, p, r, c⟩
  cases h
  simp [clientStep, drainClient]

/-- Witness for C2: an enqueue arriving while operation 3 occupies the
slot leaves it pending. -/
theorem memoryClient_fifo_order_witness :
    (clientStep ⟨[], some 3, [], 0⟩ (.enqueue 4)).pending = some 3 :=
  (memoryClient_fifo_order.2.1 _ 3 4 rfl).1

/-- Claim C3 counterexample: an augmentation trigger fired by the
turn-complete fallback while the boolean in-flight guard is set is not
dropped.  After the first-audio-chunk trigger starts an augmentation
(isAnalyzing set) and a further transcript delta refills the user buffer,
a turn-complete event starts a second concurrent augmentation: two
processUserContext round trips are in flight at once. -/
theorem augmentation_guard_counterexample :
    (runMessages initSession
      [⟨false, some "Remember the launch codes", none, none, false⟩,
       ⟨false, none, none, some ⟨0, 1⟩, false⟩,
       ⟨false, some "And the perimeter schedule", none, none, false⟩]).isAnalyzing
      = true ∧
    (runMessages initSession
      [⟨false, some "Remember the launch codes", none, none, false⟩,
       ⟨false, none, none, some ⟨0, 1⟩, false⟩,
       ⟨false, some "And the perimeter schedule", none, none, false⟩,
       ⟨false, none, none, none, true⟩]).inFlight = 2 := by
  constructor <;> decide

/-- Claim C3 (amended): only the first-audio-chunk heuristic consults the
in-flight guard — an audio-chunk trigger arriving while isAnalyzing is set
is silently dropped and starts no augmentation — while the turn-complete
fallback checks only that the user buffer is non-empty and starts an
augmentation even while one is in flight. -/
theorem augmentation_guard_amended (st : SessionState) (c : AudioChunk)
    (h : st.isAnalyzing = true) :
    (processMessage st ⟨false, none, none, some c, false⟩).inFlight
        = st.inFlight ∧
    (strTrim st.inputTranscript ≠ "" →
      (processMessage st ⟨false, none, none, none, true⟩).inFlight
        = st.inFlight + 1) := by
  constructor
  · simp [processMessage, h]
  · intro hne
    simp only [processMessage, h]
    simp [hne]
    split <;> rfl

/-- Witness for the amended C3 at a concrete in-flight state. -/
theorem augmentation_guard_amended_witness :
    (processMessage ⟨0, [], 0, "abc", "", true, 1, []⟩
        ⟨false, none, none, some ⟨0, 1⟩, false⟩).inFlight = 1 ∧
    (processMessage ⟨0, [], 0, "abc", "", true, 1, []⟩
        ⟨false, none, none, none, true⟩).inFlight = 2 :=
  ⟨(augmentation_guard_amended ⟨0, [], 0, "abc", "", true, 1, []⟩ ⟨0, 1⟩ rfl).1,
   (augmentation_guard_amended ⟨0, [], 0, "abc", "", true, 1, []⟩ ⟨0, 1⟩ rfl).2
     (by decide)⟩

/-- Claim C4: processing an interruption event empties the Active
Playback Set, resets the Playback Schedule Cursor to zero — so the next
chunk scheduled at a clock reading now starts at now, not at the discarded
cursor value — and discards the in-progress agent transcript buffer
without emitting any log record. -/
theorem interruption_resets_playback (st : SessionState) (now : ℚ)
    (h : 0 ≤ now) :
    (processMessage st ⟨true, none, none, none, false⟩).audioSources = [] ∧
    (processMessage st ⟨true, none, none, none, false⟩).nextStartTime = 0 ∧
    (processMessage st ⟨true, none, none, none, false⟩).outputTranscript = "" ∧
    (processMessage st ⟨true, none, none, none, false⟩).logs = st.logs ∧
    playStartTime
      (processMessage st ⟨true, none, none, none, false⟩).nextStartTime now
      = now := by
  have hst : processMessage st ⟨true, none, none, none, false⟩ =
      { st with audioSources := [], nextStartTime := 0, outputTranscript := "" } := by
    simp [processMessage]
  rw [hst]
  refine ⟨rfl, rfl, rfl, rfl, ?_⟩
  exact max_eq_right h

/-- Witness for C4 at the initial session state and clock reading 1. -/
theorem interruption_resets_playback_witness :
    (processMessage initSession ⟨true, none, none, none, false⟩).audioSources
        = [] ∧
    playStartTime
      (processMessage initSession ⟨true, none, none, none, false⟩).nextStartTime 1
      = 1 :=
  ⟨(interruption_resets_playback initSession 1 (by norm_num)).1,
   (interruption_resets_playback initSession 1 (by norm_num)).2.2.2.2⟩

/-- Unfolding lemma for searchMemoriesOp on a successful fetch. -/
theorem searchMemoriesOp_ok (records : List Memory) (query : String)
    (searchTags : List String) :
    searchMemoriesOp (.ok records) query searchTags =
      if strTrim (strLower query) = "" ∧ searchTags.map strLower = [] then
        (true, [])
      else
        (true,
          ((records.filter
            (memMatches (strTrim (strLower query)) (searchTags.map strLower))).mergeSort
              recencyLe).take 5) := rfl

/-- The Boolean match predicate of searchMemories agrees with the match
predicate stated in the claim. -/
theorem memMatches_iff (q : String) (sTags : List String) (m : Memory) :
    memMatches q sTags m = true ↔ ClaimMatch q sTags m := by
  unfold memMatches ClaimMatch strContainsB
  simp [List.any_eq_true, Bool.or_eq_true, Bool.and_eq_true, decide_eq_true_eq,
    or_assoc]

/-- The descending recency comparison is transitive. -/
theorem recencyLe_trans (a b c : Memory) (h1 : recencyLe a b = true)
    (h2 : recencyLe b c = true) : recencyLe a c = true := by
  simp [recencyLe] at *
  exact le_trans h2 h1

/-- The descending recency comparison is total. -/
theorem recencyLe_total (a b : Memory) :
    (recencyLe a b || recencyLe b a) = true := by
  simp [recencyLe]
  exact le_total _ _

/-- Claim C5 counterexample: on a vacuous query — trimmed query empty and
tag list empty — searchMemories still dispatches the fetch-all to the
backend (the source awaits db.fetchAll() before the vacuous-query check);
the first component of searchMemoriesOp records that dispatch, and it is
true even though the empty list is returned. -/
theorem search_vacuous_still_fetches :
    searchMemoriesOp
      (.ok [⟨"1", "dreadnought schematics", "TARGET_DATA", ["ship"], 10⟩])
      "  " [] = (true, []) := by
  decide

/-- Claim C5 (amended): searchMemories returns at most 5 records, sorted
by creation time descending, each matching the claim's predicate (the
non-empty lowercased query is a substring of content, category or some
tag, or some search tag is a substring of some record tag), and on a
vacuous query it returns the empty list — but the fetch-all against the
backend is performed on every call, including vacuous ones. -/
theorem search_cap_sort_match (records : List Memory) (query : String)
    (searchTags : List String) :
    (searchMemoriesOp (.ok records) query searchTags).1 = true ∧
    (searchMemoriesOp (.ok records) query searchTags).2.length ≤ 5 ∧
    List.Pairwise (fun a b : Memory => b.created_ms ≤ a.created_ms)
      (searchMemoriesOp (.ok records) query searchTags).2 ∧
    (∀ m ∈ (searchMemoriesOp (.ok records) query searchTags).2,
      ClaimMatch (strTrim (strLower query)) (searchTags.map strLower) m) ∧
    (strTrim (strLower query) = "" ∧ searchTags.map strLower = [] →
      (searchMemoriesOp (.ok records) query searchTags).2 = []) := by
  by_cases hvac : strTrim (strLower query) = "" ∧ searchTags.map strLower = []
  · rw [searchMemoriesOp_ok, if_pos hvac]
    simp
  · rw [searchMemoriesOp_ok, if_neg hvac]
    refine ⟨rfl, List.length_take_le _ _, ?_, ?_, fun h => absurd h hvac⟩
    · have hs := @List.sorted_mergeSort _ recencyLe recencyLe_trans
        recencyLe_total
        (records.filter
          (memMatches (strTrim (strLower query)) (searchTags.map strLower)))
      have hs2 : List.Pairwise (fun a b : Memory => b.created_ms ≤ a.created_ms)
          ((records.filter
            (memMatches (strTrim (strLower query)) (searchTags.map strLower))).mergeSort
              recencyLe) := by
        refine hs.imp ?_
        intro a b hab
        simpa [recencyLe] using hab
      exact hs2.sublist (List.take_sublist _ _)
    · intro m hm
      have hm2 := List.mem_of_mem_take hm
      have hm3 : m ∈ records.filter
          (memMatches (strTrim (strLower query)) (searchTags.map strLower)) :=
        (List.mergeSort_perm _ recencyLe).mem_iff.mp hm2
      exact (memMatches_iff _ _ _).mp (List.mem_filter.mp hm3).2

/-- Witness for the amended C5 at a concrete record set and query. -/
theorem search_cap_sort_match_witness :
    (searchMemoriesOp
      (.ok [⟨"1", "dreadnought schematics", "TARGET_DATA", ["ship"], 10⟩])
      "ship" []).2.length ≤ 5 :=
  (search_cap_sort_match
    [⟨"1", "dreadnought schematics", "TARGET_DATA", ["ship"], 10⟩]
    "ship" []).2.1

/-- Claim C6: the public memory helpers never propagate a failure — in
the embedding they are total functions — and on a failing underlying
operation saveMemory returns the synthetic identifier built from
"offline-id-" and the timestamp, getAllMemories and searchMemories return
the empty list, and the failure is reported only through the emitted
error log. -/
theorem helpers_degrade_instead_of_throwing (e : String) (nowMs : ℕ)
    (q : String) (tags : List String) :
    saveMemoryHelper (.error e) nowMs =
      ("offline-id-" ++ toString nowMs, some ("Write Protocol Failed: " ++ e)) ∧
    getAllMemoriesHelper (.error e) =
      ([], some ("Read Protocol Failed: " ++ e)) ∧
    (searchMemoriesOp (.error e) q tags).2 = [] ∧
    searchErrorLog (.error e) = some ("Search Protocol Failed: " ++ e) ∧
    (∀ id, saveMemoryHelper (.ok id) nowMs = (id, none)) ∧
    (∀ ms, getAllMemoriesHelper (.ok ms) = (ms, none)) :=
  ⟨rfl, rfl, rfl, rfl, fun _ => rfl, fun _ => rfl⟩

/-- Claim C7 counterexample: the PCM round trip is not within one
quantization step for every sample.  At s = 1048575/1048576 (an exactly
representable float32 value) the encoder truncates s * 32767 =
34358657025/1048576 down to 32766, and the decoded value 32766/32768
differs from s by 63/1048576, which exceeds 1/32768 = 32/1048576. -/
theorem pcm_roundtrip_counterexample :
    1 / 32768 <
      |pcmDecodeSample (float32ToPcmSample (1048575 / 1048576)) -
        1048575 / 1048576| := by
  have hc : clampSample (1048575 / 1048576 : ℚ) = 1048575 / 1048576 := by
    unfold clampSample
    rw [min_eq_right (by norm_num), max_eq_right (by norm_num)]
  have h1 : float32ToPcmSample (1048575 / 1048576) = 32766 := by
    unfold float32ToPcmSample truncToward0
    rw [hc, if_neg (by norm_num), if_neg (by norm_num)]
    rw [show (1048575 / 1048576 : ℚ) * 32767 = 34358657025 / 1048576 by norm_num]
    rw [Int.floor_eq_iff]
    constructor <;> norm_num
  rw [h1]
  unfold pcmDecodeSample
  rw [abs_of_nonpos (by norm_num)]
  norm_num

/-- Claim C7 (amended): for every sample s in [-1, 1], encoding with
float32ToPcmBlob and decoding with pcmToAudioBuffer reproduces s within
two quantization steps, |decoded - s| < 2/32768; negative samples stay
within one step, but non-negative samples are scaled by 32767 and then
truncated, so their error can exceed one step (approaching two). -/
theorem pcm_roundtrip_within_two_steps (s : ℚ) (h1 : -1 ≤ s) (h2 : s ≤ 1) :
    |pcmDecodeSample (float32ToPcmSample s) - s| < 2 / 32768 := by
  have hc : clampSample s = s := by
    unfold clampSample
    rw [min_eq_right h2, max_eq_right h1]
  unfold float32ToPcmSample pcmDecodeSample truncToward0
  rw [hc]
  by_cases hs : s < 0
  · rw [if_pos hs, if_pos (by nlinarith)]
    rw [abs_lt]
    constructor <;>
      linarith [Int.le_ceil (s * 32768), Int.ceil_lt_add_one (s * 32768)]
  · push_neg at hs
    have hns : ¬ s < 0 := not_lt.mpr hs
    rw [if_neg hns, if_neg (not_lt.mpr (mul_nonneg hs (by norm_num)))]
    rw [abs_lt]
    constructor <;>
      linarith [Int.floor_le (s * 32767), Int.sub_one_lt_floor (s * 32767)]

/-- Witness for the amended C7 at s = 1/2. -/
theorem pcm_roundtrip_within_two_steps_witness :
    |pcmDecodeSample (float32ToPcmSample (1 / 2)) - 1 / 2| < 2 / 32768 :=
  pcm_roundtrip_within_two_steps (1 / 2) (by norm_num) (by norm_num)

/-- Unfolding lemma for the downsampling branch of downsampleBuffer. -/
theorem downsampleBuffer_ok (buffer : List ℚ) (rin rout : ℕ)
    (hne : ¬ rout = rin) (hnlt : ¬ rin < rout) :
    downsampleBuffer buffer rin rout =
      .ok ((List.range
          ((jsRound ((buffer.length : ℚ) / ((rin : ℚ) / (rout : ℚ)))).toNat)).map
        (boxcarOutput buffer ((rin : ℚ) / (rout : ℚ)))) := by
  unfold downsampleBuffer
  rw [if_neg hne, if_neg hnlt]

/-- Claim C8: downsampleBuffer returns the input unchanged on equal rates,
throws on a requested upsample, and otherwise produces
round(L * R_out / R_in) samples, each the boxcar average of the input
samples whose index window maps to it under the ratio R_in / R_out. -/
theorem downsample_spec (buffer : List ℚ) (rin rout : ℕ)
    (_hpos : 0 < rout) (hlt : rout < rin) :
    downsampleBuffer buffer rin rin = .ok buffer ∧
    downsampleBuffer buffer rout rin = .error "Upsampling not supported" ∧
    downsampleBuffer buffer rin rout =
      .ok ((List.range
          ((jsRound ((buffer.length : ℚ) * (rout : ℚ) / (rin : ℚ))).toNat)).map
        (boxcarOutput buffer ((rin : ℚ) / (rout : ℚ)))) ∧
    ∀ out, downsampleBuffer buffer rin rout = .ok out →
      out.length = (jsRound ((buffer.length : ℚ) * (rout : ℚ) / (rin : ℚ))).toNat := by
  have harg : (buffer.length : ℚ) / ((rin : ℚ) / (rout : ℚ)) =
      (buffer.length : ℚ) * (rout : ℚ) / (rin : ℚ) := div_div_eq_mul_div _ _ _
  have hok := downsampleBuffer_ok buffer rin rout (by omega) (by omega)
  rw [harg] at hok
  refine ⟨by simp [downsampleBuffer], ?_, hok, ?_⟩
  · unfold downsampleBuffer
    rw [if_neg (by omega), if_pos hlt]
  · intro out h
    rw [hok] at h
    cases h
    simp

/-- Witness for C8: equal rates return the buffer unchanged, concrete
instance of the downsampling branch at rates 2 to 1. -/
theorem downsample_spec_witness :
    downsampleBuffer [2, 4] 2 2 = .ok [2, 4] ∧
    downsampleBuffer [2, 4] 1 2 = .error "Upsampling not supported" :=
  ⟨(downsample_spec [2, 4] 2 1 (by norm_num) (by norm_num)).1,
   (downsample_spec [2, 4] 2 1 (by norm_num) (by norm_num)).2.1⟩

/-- Claim C9 (modelled from the spec, the RECORDING revision of the hook
being absent from src/): while RECORDING, each completed turn without the
stop phrase is appended to the Recording Accumulation Buffer instead of
being delivered to the Context Augmentation Engine, and on the example
turns the engine receives exactly the single utterance
"fact A fact B fact C" with trigger and stop phrases stripped. -/
theorem recording_accumulates_and_flushes_once :
    (∀ (st : RecorderState) (turn : List String),
        st.recording = true → splitAtPhrase stopPhraseWords turn = none →
        processTurn st turn = { st with recBuffer := st.recBuffer ++ turn }) ∧
    processTurns initRecorder
        [["begin", "recording", "fact", "A"], ["fact", "B"],
         ["fact", "C", "end", "recording"]] =
      { recording := false, recBuffer := [],
        delivered := ["fact A fact B fact C"] } := by
  constructor
  · intro st turn h1 h2
    unfold processTurn
    rw [h1, h2]
    simp
  · decide

/-- Witness for C9: a turn without the stop phrase is appended to the
accumulation buffer while recording. -/
theorem recording_accumulates_witness :
    processTurn ⟨true, ["fact", "A"], []⟩ ["fact", "B"] =
      ⟨true, ["fact", "A", "fact", "B"], []⟩ :=
  recording_accumulates_and_flushes_once.1 ⟨true, ["fact", "A"], []⟩
    ["fact", "B"] rfl (by decide)
